import Mathlib

/-!
Verification of `azure_devops_build_iteractive.py` (azure-cli appservice
command module): a shallow embedding of the interactive Azure DevOps /
GitHub continuous delivery onboarding flow, together with theorems about
its scenario selection, naming, pre-checks, repository synchronisation and
build/release polling logic.

Conventions used throughout the embedding:
* Python strings are Lean `String`s; Python `None` is `Option.none`.
* Python truthiness of an optional string (`if self.x:`) is `truthyS`.
* Remote services, the local filesystem and the interactive prompts are
  modelled by an explicit environment record (`Env`); each orchestration
  step returns the list of external interactions it performed (`Event`)
  together with either the updated session state or a raised error.
* `CLIError` is modelled by `Err.cli`; an uncaught
  `LanguageNotSupportException` by `Err.langNotSupported`; an uncaught
  Python runtime error (KeyError / IndexError / StopIteration) by
  `Err.pythonError`; and `Err.stuck` marks the point where the modelled
  finite stream of prompt answers / poll responses is exhausted while the
  source would keep looping.
* Quote characters inside source error messages are omitted, the message
  text is otherwise kept verbatim; `os.linesep` is rendered as a newline.
-/

/-- Python `list.__contains__` for strings (`'linux' in kinds`). -/
def pyContains (l : List String) (x : String) : Bool :=
  decide (x ∈ l)

/-- `leadsWith p s` holds when the character list `p` is an initial
segment of `s` (helper for the Python `str.replace(old, new, 1)`). -/
def leadsWith : List Char → List Char → Bool
  | [], _ => true
  | _ :: _, [] => false
  | p :: ps, q :: qs => p == q && leadsWith ps qs

/-- Replace the first occurrence of `old` by `new` in `s`
(Python `s.replace(old, new, 1)` on lists of characters). -/
def replaceFirstList (old new : List Char) : List Char → List Char
  | [] => if leadsWith old [] then new else []
  | c :: cs =>
      if leadsWith old (c :: cs) then new ++ (c :: cs).drop old.length
      else c :: replaceFirstList old new cs

/-- Python `s.replace(old, new, 1)`. -/
def pyReplaceFirst (s old new : String) : String :=
  String.mk (replaceFirstList old.data new.data s.data)

/-- Python slice `s[0:n]`. -/
def pyTake (s : String) (n : Nat) : String :=
  String.mk (s.data.take n)

/-- Python truthiness of an optional string: `None` and `""` are falsy. -/
def truthyS : Option String → Bool
  | none => false
  | some s => !(s == "")

/-- `SUPPORTED_SCENARIOS` from the source module. -/
def SUPPORTED_SCENARIOS : List String := ["AZURE_DEVOPS", "GITHUB_INTEGRATION"]

/-- `SUPPORTED_SOURCECODE_LOCATIONS` from the source module. -/
def SUPPORTED_SOURCECODE_LOCATIONS : List String := ["Current Directory", "Github"]

/-- `SUPPORTED_LANGUAGES` from the source module: a map from the three
supported `FUNCTIONS_WORKER_RUNTIME` keys to the language constants.
Modelled from the spec: the constants `PYTHON`, `NODE`, `DOTNET` are
imported from `azure_functions_devops_build.constants`, which is not under
src/; the spec describes a fixed supported set of three languages compared
directly against the locally declared runtime string, so each constant is
taken to equal its key. -/
def SUPPORTED_LANGUAGES : List (String × String) :=
  [("python", "python"), ("node", "node"), ("dotnet", "dotnet")]

/-- `check_scenario`: scenario selection from the optional
`repository_name`, `github_pat`, `github_repository` arguments; when all
are falsy the user is prompted to pick one of the two source code
locations and the chosen index is mapped positionally onto
`SUPPORTED_SCENARIOS`. -/
def check_scenario (repository_name github_pat github_repository : Option String)
    (choice_index : Fin 2) : String :=
  if truthyS repository_name then "AZURE_DEVOPS"
  else if truthyS github_pat || truthyS github_repository then "GITHUB_INTEGRATION"
  else SUPPORTED_SCENARIOS.get ⟨choice_index.val, choice_index.isLt⟩

/-- `process_build_and_release_definition_name`: derives the build and
release definition names from the scenario and the repository identity.
`prev` is the pair of definition-name fields before the call (the method
leaves them unchanged when the scenario matches neither branch). -/
def process_build_and_release_definition_name (scenario : String)
    (repository_remote_name github_repository : String)
    (prev : Option String × Option String) : Option String × Option String :=
  let st1 :=
    if scenario = "AZURE_DEVOPS" then
      (some (pyTake (pyReplaceFirst repository_remote_name "_azuredevops_" "_build_") 256),
       some (pyTake (pyReplaceFirst repository_remote_name "_azuredevops_" "_release_") 256))
    else prev
  if scenario = "GITHUB_INTEGRATION" then
    (some ("_build_github_" ++ pyTake (pyReplaceFirst github_repository "/" "_") 256),
     some ("_release_github_" ++ pyTake (pyReplaceFirst github_repository "/" "_") 256))
  else st1

/-- One application setting of the function app (`{'name': .., 'value': ..}`). -/
structure AppSetting where
  name : String
  value : String
deriving DecidableEq, Repr

/-- Result of `_get_functionapp_storage_name`: either the Python return
value (`None` or the extracted account name) or an uncaught `IndexError`
from the positional indexing. -/
inductive StorageNameResult where
  | ok (v : Option String)
  | indexError
deriving DecidableEq, Repr

/-- Split a character list at every occurrence of the character `c`
(structural helper for Python `str.split` with a one-character
separator). -/
def splitCharAux (c : Char) : List Char → List (List Char)
  | [] => [[]]
  | x :: xs =>
    let r := splitCharAux c xs
    if x == c then [] :: r
    else
      match r with
      | [] => [[x]]
      | h :: t => (x :: h) :: t

/-- Python `s.split(sep)` for the one-character separators used by the
source (`';'` and `'='`). -/
def pySplit (s : String) (sep : Char) : List String :=
  (splitCharAux sep s.data).map String.mk

/-- `_get_functionapp_storage_name`: picks the settings named
`AzureWebJobsStorage`, and on the first one splits its value on `;`,
takes the segment at index 1, splits that on `=` and takes the piece at
index 1; returns `None` when no such setting exists. -/
def _get_functionapp_storage_name (app_settings : List AppSetting) : StorageNameResult :=
  match (app_settings.filter (fun s => s.name = "AzureWebJobsStorage")).map
      (fun s => s.value) with
  | [] => .ok none
  | v :: _ =>
    match (pySplit v (Char.ofNat 59)).get? 1 with
    | none => .indexError
    | some seg =>
      match (pySplit seg (Char.ofNat 61)).get? 1 with
      | none => .indexError
      | some piece => .ok (some piece)

/-- The two reserved keys excluded by `process_yaml_local`. -/
def reservedSettingKeys : List String := ["FUNCTIONS_WORKER_RUNTIME", "AzureWebJobsStorage"]

/-- The settings collected by `process_yaml_local` from the `Values`
object of `local.settings.json`: every key/value pair whose key is not
one of the two reserved infrastructure keys. -/
def collectNonReservedSettings (values : List (String × String)) : List (String × String) :=
  values.filter (fun kv => !(pyContains reservedSettingKeys kv.1))

/-- Consent resolution in `process_yaml_local`: the pre-supplied
`--use-local-settings` answer when present, otherwise the interactive
yes/no prompt answer. -/
def useLocalSettingsConsent (use_local_settings : Option Bool) (promptAnswer : Bool) : Bool :=
  match use_local_settings with
  | none => promptAnswer
  | some b => b

/-- The settings list stored on the session by `process_yaml_local`:
the collected non-reserved pairs, emptied when they are non-empty and
consent is declined (the consent prompt is only reached when the
collected list is non-empty). -/
def process_yaml_local_settings (values : List (String × String))
    (use_local_settings : Option Bool) (promptAnswer : Bool) : List (String × String) :=
  let settings := collectNonReservedSettings values
  if settings.isEmpty then settings
  else if useLocalSettingsConsent use_local_settings promptAnswer then settings
  else []

/-- The hosting type constants `LINUX_CONSUMPTION`, `LINUX_DEDICATED`,
`WINDOWS` imported from `azure_functions_devops_build.constants` (values
opaque to the source module, only compared for equality). -/
inductive FType where
  | linuxConsumption
  | linuxDedicated
  | windows
deriving DecidableEq, Repr

/-- `_find_type`: classifies the webapp `kind` fragments into one of the
three hosting types. -/
def _find_type (kinds : List String) : FType :=
  if pyContains kinds "linux" then
    if pyContains kinds "container" then FType.linuxDedicated
    else FType.linuxConsumption
  else FType.windows

/-- Errors that abort the flow. `cli` models `knack.util.CLIError`;
`langNotSupported` models an uncaught `LanguageNotSupportException`;
`pythonError` models an uncaught Python runtime error (KeyError,
IndexError, StopIteration); `stuck` marks the modelled finite stream of
prompt answers / poll responses being exhausted at a point where the
source would keep looping or waiting. -/
inductive Err where
  | cli (msg : String)
  | langNotSupported (language : String)
  | pythonError
  | stuck
deriving DecidableEq, Repr

/-- External interactions performed by the flow: calls to the hosting
control plane, to the Azure DevOps provisioning API, to local git, local
manifest generation and `time.sleep`. -/
inductive Event where
  | listFunctionApps
  | showWebapp
  | getAppSettings
  | checkGit
  | checkGitLocalRepository
  | checkGitRemote
  | setupLocalGit
  | removeGitRemote
  | checkGitCredentialManager
  | push (force : Bool)
  | listOrganizations
  | listRegions
  | createOrganization
  | listProjects
  | createProject
  | getRepository
  | createRepository
  | getRepositoryBranches
  | getServiceEndpoints
  | createServiceEndpoint
  | createExtension (name : String)
  | listBuildDefinitions
  | createBuildDefinition
  | createBuildObject
  | listBuildObjects
  | listReleaseDefinitions
  | createReleaseDefinition
  | createRelease
  | createYaml
  | sleep (secs : Nat)
deriving DecidableEq, Repr

/-- Interactions that reach out over the network to a remote system
(hosting control plane, Azure DevOps provisioning API, or a git push to
the remote repository). -/
def isRemoteCall : Event → Bool
  | .listFunctionApps | .showWebapp | .getAppSettings => true
  | .listOrganizations | .listRegions | .createOrganization => true
  | .listProjects | .createProject => true
  | .getRepository | .createRepository | .getRepositoryBranches => true
  | .getServiceEndpoints | .createServiceEndpoint => true
  | .createExtension _ => true
  | .listBuildDefinitions | .createBuildDefinition | .createBuildObject => true
  | .listBuildObjects => true
  | .listReleaseDefinitions | .createReleaseDefinition | .createRelease => true
  | .push _ => true
  | _ => false

/-- Calls against the Azure DevOps provisioning API (the `adbp` client):
organization, project, repository, service endpoint, extension, build and
release operations. -/
def isDevopsApiCall : Event → Bool
  | .listOrganizations | .listRegions | .createOrganization => true
  | .listProjects | .createProject => true
  | .getRepository | .createRepository | .getRepositoryBranches => true
  | .getServiceEndpoints | .createServiceEndpoint => true
  | .createExtension _ => true
  | .listBuildDefinitions | .createBuildDefinition | .createBuildObject => true
  | .listBuildObjects => true
  | .listReleaseDefinitions | .createReleaseDefinition | .createRelease => true
  | _ => false

/-- A queued build as reported by the provisioning API. -/
structure Build where
  id : Nat
  status : String
  result : Option String
deriving DecidableEq, Repr

/-- `_get_build_by_id`: first build with the requested id among the
listed build objects (`next(...)`; `none` models `StopIteration`). -/
def get_build_by_id (builds : List Build) (build_id : Nat) : Option Build :=
  builds.find? (fun b => b.id == build_id)

/-- The build results page URL interpolated into log and error messages. -/
def buildResultsUrl (org proj : String) (build_id : Nat) : String :=
  "https://dev.azure.com/" ++ org ++ "/" ++ proj ++ "/_build/results?buildId=" ++
    toString build_id

/-- The `CLIError` message raised when the polled build result is `failed`. -/
def buildFailedMsg (org proj : String) (build_id : Nat) : String :=
  "Sorry, your build has failed in Azure Devops.\n" ++
  "To view details on why your build has failed please visit " ++
    buildResultsUrl org proj build_id

/-- The `CLIError` message raised when release creation fails. -/
def releaseFailedMsg (org proj : String) : String :=
  "Sorry, your release has failed in Azure Devops.\n" ++
  "To view details on why your release has failed please visit " ++
    "https://dev.azure.com/" ++ org ++ "/" ++ proj ++ "/_release"

/-- The `while build is None or build.result is None` loop of
`process_release`: each iteration sleeps 5 seconds, lists the build
objects and looks the build up by id; the loop exits only when the
fetched build carries a non-null result. `polls` is the successive
sequence of listings returned by the remote side; exhausting it while
every fetched result is still null yields `Err.stuck`. -/
def pollLoop (build_id : Nat) : List (List Build) → List Event × Except Err Build
  | [] => ([], .error .stuck)
  | bs :: rest =>
    match get_build_by_id bs build_id with
    | none => ([Event.sleep 5, Event.listBuildObjects], .error .pythonError)
    | some b =>
      if b.result = none then
        let r := pollLoop build_id rest
        (Event.sleep 5 :: Event.listBuildObjects :: r.1, r.2)
      else ([Event.sleep 5, Event.listBuildObjects], .ok b)

/-- `process_release`: wait for the queued build to report a result, fail
with a link to the build results page when the result is `failed`,
otherwise create the release definition when absent, wait a fixed 5
seconds for artifact propagation and create the release. -/
def process_release (org proj : String) (build_id : Nat) (polls : List (List Build))
    (release_definitions : List String) (release_definition_name : String)
    (create_release_ok : Bool) : List Event × Except Err Unit :=
  let lp := pollLoop build_id polls
  match lp.2 with
  | .error e => (lp.1, .error e)
  | .ok b =>
    if b.result = some "failed" then
      (lp.1, .error (.cli (buildFailedMsg org proj b.id)))
    else
      let evs := lp.1 ++ [Event.listReleaseDefinitions] ++
        (if release_definitions.contains release_definition_name then []
         else [Event.createReleaseDefinition]) ++
        [Event.sleep 5, Event.createRelease]
      if create_release_ok then (evs, .ok ())
      else (evs, .error (.cli (releaseFailedMsg org proj)))

/-- The `CLIError` message raised when `FUNCTIONS_WORKER_RUNTIME` is
undefined or empty in the `local.settings.json` file. -/
def runtimeNotDefinedMsg : String :=
  "The FUNCTIONS_WORKER_RUNTIME setting is not defined in the local.settings.json file"

/-- The `CLIError` message raised when the locally declared runtime
language differs from the function app language (quotes omitted,
`os.linesep` rendered as a newline). -/
def languageMismatchMsg (setting : String) (functionapp_language : Option String) : String :=
  "The local language you are using (" ++ setting ++
  ") does not match the language of your function app (" ++
  (match functionapp_language with | none => "None" | some l => l) ++ ")\n" ++
  "Please look at the FUNCTIONS_WORKER_RUNTIME both in your local.settings.json " ++
  " and in your application settings on your functionapp in Azure."

/-- The outcome of `adbp.get_github_content(pat, repo, 'local.settings.json')`:
either `GithubContentNotFound`, or the parsed JSON content, whose `Values`
object (when present) is a string-to-string map. -/
inductive GithubFetch where
  | notFound
  | content (values : Option (List (String × String)))
deriving DecidableEq, Repr

/-- `_find_github_repository_runtime_language`: `none` (check disabled)
when `local.settings.json` is not committed to the GitHub repository;
`CLIError` when the `FUNCTIONS_WORKER_RUNTIME` key is missing or empty;
`LanguageNotSupportException` when the declared language is not one of the
three supported languages; otherwise the declared language. -/
def _find_github_repository_runtime_language (fetch : GithubFetch) :
    Except Err (Option String) :=
  match fetch with
  | .notFound => .ok none
  | .content values =>
    match (values.getD []).lookup "FUNCTIONS_WORKER_RUNTIME" with
    | none => .error (.cli runtimeNotDefinedMsg)
    | some v =>
      if v = "" then .error (.cli runtimeNotDefinedMsg)
      else
        match SUPPORTED_LANGUAGES.lookup v with
        | some _ => .ok (some v)
        | none => .error (.langNotSupported v)

/-- The `CLIError` message raised when the GitHub repository has no
`host.json` (quotes omitted, `os.linesep` rendered as newlines). -/
def hostJsonGithubMsg (repo : String) : String :=
  "There is no host.json in Github repository " ++ repo ++ ".\n" ++
  "Functionapps repository must contain a host.json in their root.\n" ++
  "Please ensure you have read permission to the repository."

/-- `pre_checks_github`: requires `host.json` in the GitHub repository,
then compares the runtime language declared in the repository (when the
declaration file is present) against the function app language. -/
def pre_checks_github (host_json_in_repo : Bool) (fetch : GithubFetch)
    (functionapp_language : Option String) (github_repository : String) :
    Except Err Unit :=
  if !host_json_in_repo then .error (.cli (hostJsonGithubMsg github_repository))
  else
    match _find_github_repository_runtime_language fetch with
    | .error e => .error e
    | .ok none => .ok ()
    | .ok (some lang) =>
      if functionapp_language = some lang then .ok ()
      else .error (.cli (languageMismatchMsg lang functionapp_language))

lemma pyTake_length_le (s : String) (n : Nat) : (pyTake s n).length ≤ n := by
  simp [pyTake, String.length_mk, List.length_take]

lemma pbrdn_azure_eq (rrn ghr : String) (prev : Option String × Option String) :
    process_build_and_release_definition_name "AZURE_DEVOPS" rrn ghr prev =
      (some (pyTake (pyReplaceFirst rrn "_azuredevops_" "_build_") 256),
       some (pyTake (pyReplaceFirst rrn "_azuredevops_" "_release_") 256)) := by
  simp only [process_build_and_release_definition_name]
  simp

lemma pbrdn_github_eq (rrn ghr : String) (prev : Option String × Option String) :
    process_build_and_release_definition_name "GITHUB_INTEGRATION" rrn ghr prev =
      (some ("_build_github_" ++ pyTake (pyReplaceFirst ghr "/" "_") 256),
       some ("_release_github_" ++ pyTake (pyReplaceFirst ghr "/" "_") 256)) := by
  simp only [process_build_and_release_definition_name]
  simp

/-- A 243-character GitHub repository full name (no slash). -/
def longGithubRepositoryName : String := String.mk (List.replicate 243 (Char.ofNat 97))

set_option maxRecDepth 8000 in
/-- C1 counterexample: for the GITHUB_INTEGRATION scenario the 256-slice is
applied to the repository part only, before the `_build_github_` prefix is
prepended, so a 243-character repository name yields a 257-character build
definition name, refuting "each resulting name is at most 256 characters
long". -/
theorem process_build_and_release_definition_name_c1_counterexample :
    ((process_build_and_release_definition_name "GITHUB_INTEGRATION" ""
        longGithubRepositoryName (none, none)).1.map String.length = some 257) ∧
    ¬ (257 ≤ 256) := by
  constructor
  · rfl
  · decide

/-- C1 (amended): `process_build_and_release_definition_name` is a pure,
deterministic function of (scenario, repository identity), so calling it
twice yields identical names; in the AZURE_DEVOPS scenario both names are
truncated to at most 256 characters, while in the GITHUB_INTEGRATION
scenario the slice is applied to the repository part only, bounding the
build name by 270 and the release name by 272 characters. -/
theorem process_build_and_release_definition_name_spec :
    ∀ (rrn ghr : String) (prev : Option String × Option String),
      (process_build_and_release_definition_name "AZURE_DEVOPS" rrn ghr prev =
         process_build_and_release_definition_name "AZURE_DEVOPS" rrn ghr prev ∧
       process_build_and_release_definition_name "GITHUB_INTEGRATION" rrn ghr prev =
         process_build_and_release_definition_name "GITHUB_INTEGRATION" rrn ghr prev) ∧
      (∀ s, (process_build_and_release_definition_name "AZURE_DEVOPS" rrn ghr prev).1 =
          some s → s.length ≤ 256) ∧
      (∀ s, (process_build_and_release_definition_name "AZURE_DEVOPS" rrn ghr prev).2 =
          some s → s.length ≤ 256) ∧
      (∀ s, (process_build_and_release_definition_name "GITHUB_INTEGRATION" rrn ghr prev).1 =
          some s → s.length ≤ 270) ∧
      (∀ s, (process_build_and_release_definition_name "GITHUB_INTEGRATION" rrn ghr prev).2 =
          some s → s.length ≤ 272) := by
  intro rrn ghr prev
  refine ⟨⟨rfl, rfl⟩, ?_, ?_, ?_, ?_⟩ <;> intro s hs
  · rw [pbrdn_azure_eq] at hs
    injection hs with h
    subst h
    exact pyTake_length_le _ _
  · rw [pbrdn_azure_eq] at hs
    injection hs with h
    subst h
    exact pyTake_length_le _ _
  · rw [pbrdn_github_eq] at hs
    injection hs with h
    subst h
    rw [String.length_append]
    have h1 : ("_build_github_" : String).length = 14 := rfl
    have h2 := pyTake_length_le (pyReplaceFirst ghr "/" "_") 256
    omega
  · rw [pbrdn_github_eq] at hs
    injection hs with h
    subst h
    rw [String.length_append]
    have h1 : ("_release_github_" : String).length = 16 := rfl
    have h2 := pyTake_length_le (pyReplaceFirst ghr "/" "_") 256
    omega

/-- C1 witness: concrete evaluation of the amended theorem on an
AZURE_DEVOPS remote name. -/
theorem process_build_and_release_definition_name_spec_witness :
    String.length "_build_org_proj_repo" ≤ 256 :=
  (process_build_and_release_definition_name_spec "_azuredevops_org_proj_repo" ""
      (none, none)).2.1 "_build_org_proj_repo" (by decide)

/-- C2: `check_scenario` returns exactly one of the two supported
scenarios, with precedence: a truthy `repository_name` selects
AZURE_DEVOPS even when the GitHub fields are set; otherwise a truthy
GitHub field selects GITHUB_INTEGRATION; otherwise the prompted choice
index is mapped positionally onto `SUPPORTED_SCENARIOS`, whose two
entries correspond one-to-one to the two prompt options. -/
theorem check_scenario_spec :
    ∀ (r p g : Option String) (i : Fin 2),
      (check_scenario r p g i = "AZURE_DEVOPS" ∨
       check_scenario r p g i = "GITHUB_INTEGRATION") ∧
      (truthyS r = true → check_scenario r p g i = "AZURE_DEVOPS") ∧
      (truthyS r = false → (truthyS p || truthyS g) = true →
        check_scenario r p g i = "GITHUB_INTEGRATION") ∧
      (truthyS r = false → truthyS p = false → truthyS g = false →
        check_scenario r p g i = SUPPORTED_SCENARIOS.get ⟨i.val, i.isLt⟩) ∧
      (SUPPORTED_SCENARIOS = ["AZURE_DEVOPS", "GITHUB_INTEGRATION"] ∧
       SUPPORTED_SOURCECODE_LOCATIONS.length = SUPPORTED_SCENARIOS.length) := by
  intro r p g i
  refine ⟨?_, ?_, ?_, ?_, rfl, rfl⟩
  · cases htr : truthyS r with
    | true => exact Or.inl (by simp [check_scenario, htr])
    | false =>
      cases hpg : truthyS p || truthyS g with
      | true => exact Or.inr (by simp [check_scenario, htr, hpg])
      | false =>
        have : check_scenario r p g i = SUPPORTED_SCENARIOS.get ⟨i.val, i.isLt⟩ := by
          simp [check_scenario, htr]
          simp at hpg
          simp [hpg]
        rw [this]
        fin_cases i <;> simp [SUPPORTED_SCENARIOS]
  · intro htr
    simp [check_scenario, htr]
  · intro htr hpg
    simp [check_scenario, htr, hpg]
  · intro htr hp hg
    simp [check_scenario, htr, hp, hg]

/-- C2 witness: an explicit repository name wins over the GitHub fields. -/
theorem check_scenario_spec_witness :
    check_scenario (some "foo") (some "pat") (some "owner/repo") 0 = "AZURE_DEVOPS" :=
  (check_scenario_spec (some "foo") (some "pat") (some "owner/repo") 0).2.1 (by decide)

/-- C8: `_get_functionapp_storage_name` returns `None` when no
`AzureWebJobsStorage` setting is present; otherwise it takes the first
matching setting value, splits it on `;`, takes the segment at index 1,
splits that on `=` and takes the piece at index 1 (an out-of-range index
is an uncaught `IndexError`); on a standard connection string this
extracts the storage account name. -/
theorem get_functionapp_storage_name_spec :
    ∀ (app_settings : List AppSetting),
      (app_settings.filter (fun s => s.name = "AzureWebJobsStorage") = [] →
        _get_functionapp_storage_name app_settings = StorageNameResult.ok none) ∧
      (∀ s rest,
        app_settings.filter (fun s2 => s2.name = "AzureWebJobsStorage") = s :: rest →
        _get_functionapp_storage_name app_settings =
          (match (pySplit s.value (Char.ofNat 59)).get? 1 with
           | none => StorageNameResult.indexError
           | some seg =>
             match (pySplit seg (Char.ofNat 61)).get? 1 with
             | none => StorageNameResult.indexError
             | some piece => StorageNameResult.ok (some piece))) ∧
      (_get_functionapp_storage_name
          [⟨"AzureWebJobsStorage",
            "DefaultEndpointsProtocol=https;AccountName=mystorage;AccountKey=secretkey"⟩] =
        StorageNameResult.ok (some "mystorage")) := by
  intro app_settings
  refine ⟨?_, ?_, by decide⟩
  · intro h
    simp only [_get_functionapp_storage_name, h, List.map_nil]
  · intro s rest h
    simp only [_get_functionapp_storage_name, h, List.map_cons]

/-- C8 witness: no `AzureWebJobsStorage` setting yields `None`. -/
theorem get_functionapp_storage_name_spec_witness :
    _get_functionapp_storage_name [⟨"FUNCTIONS_WORKER_RUNTIME", "python"⟩] =
      StorageNameResult.ok none :=
  (get_functionapp_storage_name_spec [⟨"FUNCTIONS_WORKER_RUNTIME", "python"⟩]).1 (by decide)

/-- C9: `process_yaml_local` collects from the `Values` object exactly the
pairs whose keys are neither `FUNCTIONS_WORKER_RUNTIME` nor
`AzureWebJobsStorage`; the collected list is stored when consent (the
pre-supplied `--use-local-settings` answer, or else the prompt answer) is
given, and the stored list is empty when consent is declined or nothing
was collected. -/
theorem process_yaml_local_settings_spec :
    ∀ (values : List (String × String)) (uls : Option Bool) (pa : Bool),
      (∀ kv, kv ∈ collectNonReservedSettings values ↔
        (kv ∈ values ∧ kv.1 ≠ "FUNCTIONS_WORKER_RUNTIME" ∧ kv.1 ≠ "AzureWebJobsStorage")) ∧
      (useLocalSettingsConsent uls pa = true →
        process_yaml_local_settings values uls pa = collectNonReservedSettings values) ∧
      (useLocalSettingsConsent uls pa = false →
        process_yaml_local_settings values uls pa = []) ∧
      (collectNonReservedSettings values = [] →
        process_yaml_local_settings values uls pa = []) := by
  intro values uls pa
  refine ⟨?_, ?_, ?_, ?_⟩
  · intro kv
    simp [collectNonReservedSettings, pyContains, reservedSettingKeys, List.mem_filter]
  · intro hc
    simp only [process_yaml_local_settings]
    split
    · rfl
    · simp [hc]
  · intro hc
    simp only [process_yaml_local_settings]
    split
    · simp_all [List.isEmpty_iff]
    · simp [hc]
  · intro hc
    simp [process_yaml_local_settings, hc]

/-- C9 witness: a declined consent stores the empty settings list. -/
theorem process_yaml_local_settings_spec_witness :
    process_yaml_local_settings [("MY_SETTING", "1")] (some false) true = [] :=
  (process_yaml_local_settings_spec [("MY_SETTING", "1")] (some false) true).2.2.1 rfl

/-- C7: in the GitHub scenario (with `host.json` present), the runtime
consistency check fails the flow whenever the runtime declaration in the
repository settings file is missing or empty (a `CLIError`), or when the
declared language is not one of the fixed supported set — whose keys are
exactly the three languages python, node, dotnet — in which case an
uncaught `LanguageNotSupportException` aborts the flow. -/
theorem pre_checks_github_runtime_spec :
    ∀ (values : Option (List (String × String))) (fal : Option String) (repo : String),
      ((values.getD []).lookup "FUNCTIONS_WORKER_RUNTIME" = none →
        pre_checks_github true (GithubFetch.content values) fal repo =
          Except.error (Err.cli runtimeNotDefinedMsg)) ∧
      ((values.getD []).lookup "FUNCTIONS_WORKER_RUNTIME" = some "" →
        pre_checks_github true (GithubFetch.content values) fal repo =
          Except.error (Err.cli runtimeNotDefinedMsg)) ∧
      (∀ v, (values.getD []).lookup "FUNCTIONS_WORKER_RUNTIME" = some v → v ≠ "" →
        SUPPORTED_LANGUAGES.lookup v = none →
        pre_checks_github true (GithubFetch.content values) fal repo =
          Except.error (Err.langNotSupported v)) ∧
      (SUPPORTED_LANGUAGES.map Prod.fst = ["python", "node", "dotnet"]) := by
  intro values fal repo
  refine ⟨?_, ?_, ?_, rfl⟩
  · intro h
    simp [pre_checks_github, _find_github_repository_runtime_language, h]
  · intro h
    simp [pre_checks_github, _find_github_repository_runtime_language, h]
  · intro v h hne hlook
    simp [pre_checks_github, _find_github_repository_runtime_language, h, hne, hlook]

/-- C7 witness: a declared language outside the supported set (java, the
disabled fourth language) aborts the GitHub pre-checks. -/
theorem pre_checks_github_runtime_spec_witness :
    pre_checks_github true (GithubFetch.content (some [("FUNCTIONS_WORKER_RUNTIME", "java")]))
        (some "python") "owner/repo" = Except.error (Err.langNotSupported "java") :=
  (pre_checks_github_runtime_spec (some [("FUNCTIONS_WORKER_RUNTIME", "java")])
      (some "python") "owner/repo").2.2.1 "java" (by decide) (by decide) (by decide)

lemma pollLoop_events_mem (build_id : Nat) (polls : List (List Build)) :
    ∀ ev ∈ (pollLoop build_id polls).1,
      ev = Event.sleep 5 ∨ ev = Event.listBuildObjects := by
  induction polls with
  | nil =>
    intro ev h
    simp [pollLoop] at h
  | cons bs rest ih =>
    intro ev h
    cases hg : get_build_by_id bs build_id with
    | none =>
      simp [pollLoop, hg] at h
      rcases h with h | h <;> simp [h]
    | some b =>
      by_cases hr : b.result = none
      · simp [pollLoop, hg, hr] at h
        rcases h with h | h | h
        · simp [h]
        · simp [h]
        · exact ih ev h
      · simp [pollLoop, hg, hr] at h
        rcases h with h | h <;> simp [h]

lemma pollLoop_ok_result (build_id : Nat) (polls : List (List Build)) (b : Build) :
    (pollLoop build_id polls).2 = Except.ok b → b.result ≠ none := by
  induction polls with
  | nil =>
    intro h
    simp [pollLoop] at h
  | cons bs rest ih =>
    intro h
    cases hg : get_build_by_id bs build_id with
    | none => simp [pollLoop, hg] at h
    | some b2 =>
      by_cases hr : b2.result = none
      · simp [pollLoop, hg, hr] at h
        exact ih h
      · simp [pollLoop, hg, hr] at h
        rw [← h]
        exact hr

lemma pollLoop_allNull (build_id : Nat) (polls : List (List Build)) :
    (∀ bs ∈ polls, ∃ b, get_build_by_id bs build_id = some b ∧ b.result = none) →
    (pollLoop build_id polls).2 = Except.error Err.stuck := by
  induction polls with
  | nil => intro _; rfl
  | cons bs rest ih =>
    intro h
    obtain ⟨b, hg, hr⟩ := h bs (by simp)
    have hrest := ih (fun bs2 hm => h bs2 (by simp [hm]))
    simp [pollLoop, hg, hr, hrest]

lemma process_release_eq_error (org proj : String) (build_id : Nat)
    (polls : List (List Build)) (rdefs : List String) (rdname : String) (okr : Bool)
    (e : Err) (h : (pollLoop build_id polls).2 = Except.error e) :
    process_release org proj build_id polls rdefs rdname okr =
      ((pollLoop build_id polls).1, Except.error e) := by
  simp [process_release, h]

lemma process_release_eq_failed (org proj : String) (build_id : Nat)
    (polls : List (List Build)) (rdefs : List String) (rdname : String) (okr : Bool)
    (b : Build) (h : (pollLoop build_id polls).2 = Except.ok b)
    (hres : b.result = some "failed") :
    process_release org proj build_id polls rdefs rdname okr =
      ((pollLoop build_id polls).1,
       Except.error (Err.cli (buildFailedMsg org proj b.id))) := by
  simp [process_release, h, hres]

lemma process_release_eq_go (org proj : String) (build_id : Nat)
    (polls : List (List Build)) (rdefs : List String) (rdname : String) (okr : Bool)
    (b : Build) (h : (pollLoop build_id polls).2 = Except.ok b)
    (hres : ¬ b.result = some "failed") :
    process_release org proj build_id polls rdefs rdname okr =
      ((pollLoop build_id polls).1 ++ [Event.listReleaseDefinitions] ++
        (if rdefs.contains rdname then [] else [Event.createReleaseDefinition]) ++
        [Event.sleep 5, Event.createRelease],
       if okr then Except.ok () else Except.error (Err.cli (releaseFailedMsg org proj))) := by
  cases okr with
  | true => simp [process_release, h, hres]
  | false => simp [process_release, h, hres]

/-- C4: the `process_release` polling loop sleeps a fixed 5 seconds per
iteration; while every fetched build still has a null result the loop
never exits towards release creation (a completed status with null result
keeps polling); a `failed` result aborts with a `CLIError` whose message
ends in the build results page link; and release creation is reached only
when the polled result is non-null and not `failed`. -/
theorem process_release_polling_spec :
    ∀ (org proj : String) (build_id : Nat) (polls : List (List Build))
      (rdefs : List String) (rdname : String) (okr : Bool),
      (∀ ev ∈ (process_release org proj build_id polls rdefs rdname okr).1,
        ∀ n, ev = Event.sleep n → n = 5) ∧
      ((∀ bs ∈ polls, ∃ b, get_build_by_id bs build_id = some b ∧ b.result = none) →
        (process_release org proj build_id polls rdefs rdname okr).2 =
          Except.error Err.stuck ∧
        Event.createRelease ∉ (process_release org proj build_id polls rdefs rdname okr).1) ∧
      (∀ evs b, pollLoop build_id polls = (evs, Except.ok b) → b.result = some "failed" →
        (process_release org proj build_id polls rdefs rdname okr).2 =
          Except.error (Err.cli (buildFailedMsg org proj b.id)) ∧
        (∃ pre, buildFailedMsg org proj b.id = pre ++ buildResultsUrl org proj b.id) ∧
        Event.createRelease ∉ (process_release org proj build_id polls rdefs rdname okr).1) ∧
      (Event.createRelease ∈ (process_release org proj build_id polls rdefs rdname okr).1 →
        ∃ evs b, pollLoop build_id polls = (evs, Except.ok b) ∧
          b.result ≠ none ∧ b.result ≠ some "failed") := by
  intro org proj build_id polls rdefs rdname okr
  have hpoll := pollLoop_events_mem build_id polls
  have sleepOf : ∀ n, Event.sleep n ∈ (pollLoop build_id polls).1 → n = 5 := by
    intro n hn
    rcases hpoll _ hn with h | h
    · simpa using h
    · simp at h
  have noCreate : Event.createRelease ∉ (pollLoop build_id polls).1 := by
    intro hmem
    rcases hpoll _ hmem with h | h <;> simp at h
  refine ⟨?_, ?_, ?_, ?_⟩
  · intro ev hev n hn
    subst hn
    rcases hp : (pollLoop build_id polls).2 with e | b
    · rw [process_release_eq_error org proj build_id polls rdefs rdname okr e hp] at hev
      exact sleepOf n hev
    · by_cases hres : b.result = some "failed"
      · rw [process_release_eq_failed org proj build_id polls rdefs rdname okr b hp hres] at hev
        exact sleepOf n hev
      · rw [process_release_eq_go org proj build_id polls rdefs rdname okr b hp hres] at hev
        rcases List.mem_append.mp hev with h1 | h1
        · rcases List.mem_append.mp h1 with h2 | h2
          · rcases List.mem_append.mp h2 with h3 | h3
            · exact sleepOf n h3
            · simp at h3
          · revert h2
            split <;> intro h2 <;> simp at h2
        · simpa using h1
  · intro hall
    have hstuck := pollLoop_allNull build_id polls hall
    refine ⟨?_, ?_⟩
    · rw [process_release_eq_error org proj build_id polls rdefs rdname okr Err.stuck hstuck]
    · rw [process_release_eq_error org proj build_id polls rdefs rdname okr Err.stuck hstuck]
      exact noCreate
  · intro evs b hp hres
    have hp2 : (pollLoop build_id polls).2 = Except.ok b := by rw [hp]
    have heq := process_release_eq_failed org proj build_id polls rdefs rdname okr b hp2 hres
    refine ⟨by rw [heq], ⟨"Sorry, your build has failed in Azure Devops.\n" ++
      "To view details on why your build has failed please visit ", rfl⟩, ?_⟩
    rw [heq]
    exact noCreate
  · intro hmem
    rcases hp : (pollLoop build_id polls).2 with e | b
    · rw [process_release_eq_error org proj build_id polls rdefs rdname okr e hp] at hmem
      exact absurd hmem noCreate
    · by_cases hres : b.result = some "failed"
      · rw [process_release_eq_failed org proj build_id polls rdefs rdname okr b hp hres] at hmem
        exact absurd hmem noCreate
      · exact ⟨(pollLoop build_id polls).1, b, by rw [← hp],
          pollLoop_ok_result build_id polls b hp, hres⟩

/-- C4 witness: a first poll with a null result keeps looping and a second
poll reporting `failed` aborts with the build results link in the error. -/
theorem process_release_polling_spec_witness :
    (process_release "org" "proj" 7
        [[Build.mk 7 "inProgress" none], [Build.mk 7 "completed" (some "failed")]]
        [] "rd" true).2 =
      Except.error (Err.cli (buildFailedMsg "org" "proj" 7)) :=
  ((process_release_polling_spec "org" "proj" 7
      [[Build.mk 7 "inProgress" none], [Build.mk 7 "completed" (some "failed")]]
      [] "rd" true).2.2.1
    [Event.sleep 5, Event.listBuildObjects, Event.sleep 5, Event.listBuildObjects]
    (Build.mk 7 "completed" (some "failed")) rfl rfl).1

/-- A function app as listed by `list_function_app` (name and resource
group are the only attributes the flow reads). -/
structure Functionapp where
  name : String
  resource_group : String
deriving DecidableEq, Repr

/-- The constructor arguments of `AzureDevopsBuildInteractive`. Modelled
from the spec: `utils.str2bool` (not under src/) converts the textual
flag values of `overwrite_yaml`, `allow_force_push` and
`use_local_settings` to booleans, so the three flags are modelled as the
already-converted optional booleans. -/
structure Args where
  functionapp_name : Option String
  organization_name : Option String
  project_name : Option String
  repository_name : Option String
  overwrite_yaml : Option Bool
  allow_force_push : Option Bool
  use_local_settings : Option Bool
  github_pat : Option String
  github_repository : Option String
deriving DecidableEq, Repr

/-- Responses of the remote services, the local filesystem and the
interactive prompts consumed by the Azure DevOps flow. -/
structure Env where
  functionapps : List Functionapp
  faChoice : Nat
  kinds : List String
  app_settings : List AppSetting
  has_git : Bool
  host_json : Bool
  local_settings_json : Bool
  localValues : Option (List (String × String))
  organizations : List String
  useExistingOrg : Bool
  orgChoice : Nat
  regions : List String
  regionChoice : Nat
  orgAttempts : List (String × Bool)
  projects : List String
  useExistingProject : Bool
  projChoice : Nat
  projAttempts : List (String × Bool)
  promptUseLocalSettings : Bool
  pipelines_yml_exists : Bool
  promptOverwriteYaml : Bool
  yaml_create_ok : Bool
  has_local_git_repository : Bool
  promptRepository : String
  has_local_git_remote : Bool
  setup_git_ok : Bool
  remote_repository_exists : Bool
  remote_branches : List String
  promptForcePushConsent : Bool
  git_credential_manager : Bool
  promptCredentialConsent : Bool
  push_ok : Bool
  service_endpoints : List String
  created_service_endpoint_name : String
  role_assignment_ok : Bool
  build_definitions : List String
  build_id : Nat
  polls : List (List Build)
  release_definitions : List String
  create_release_ok : Bool
deriving DecidableEq, Repr

/-- The mutable session state of `AzureDevopsBuildInteractive`. -/
structure St where
  functionapp_name : Option String
  storage_name : Option String
  resource_group_name : Option String
  functionapp_language : Option String
  functionapp_type : Option FType
  organization_name : Option String
  project_name : Option String
  repository_name : Option String
  github_pat : Option String
  github_repository : Option String
  repository_remote_name : Option String
  service_endpoint_name : Option String
  build_definition_name : Option String
  release_definition_name : Option String
  settings : List (String × String)
  created_organization : Bool
  created_project : Bool
  overwrite_yaml : Option Bool
  allow_force_push : Option Bool
  use_local_settings : Option Bool
  build_id : Option Nat
deriving DecidableEq, Repr

/-- The session state as initialised by the constructor. -/
def initSt (a : Args) : St :=
  { functionapp_name := a.functionapp_name,
    storage_name := none,
    resource_group_name := none,
    functionapp_language := none,
    functionapp_type := none,
    organization_name := a.organization_name,
    project_name := a.project_name,
    repository_name := a.repository_name,
    github_pat := a.github_pat,
    github_repository := a.github_repository,
    repository_remote_name := none,
    service_endpoint_name := none,
    build_definition_name := none,
    release_definition_name := none,
    settings := [],
    created_organization := false,
    created_project := false,
    overwrite_yaml := a.overwrite_yaml,
    allow_force_push := a.allow_force_push,
    use_local_settings := a.use_local_settings,
    build_id := none }

/-- Sequencing of flow steps: an error short-circuits the rest of the
flow, the event logs accumulate. -/
def bindStep (r : List Event × Except Err St) (f : St → List Event × Except Err St) :
    List Event × Except Err St :=
  match r.2 with
  | .error e => (r.1, .error e)
  | .ok s => (r.1 ++ (f s).1, (f s).2)

/-- Insert into an ascending list (helper for Python `sorted`). -/
def insertSorted (x : String) : List String → List String
  | [] => [x]
  | y :: ys => if x ≤ y then x :: y :: ys else y :: insertSorted x ys

/-- Python `sorted` on strings (insertion sort, ascending). -/
def sortStrings : List String → List String
  | [] => []
  | x :: xs => insertSorted x (sortStrings xs)

/-- The `CLIError` message of `_select_functionapp` when the subscription
has no function apps (quotes omitted, `os.linesep` as newlines). -/
def noFunctionappsMsg : String :=
  "You do not have any existing function apps associated with this account subscription.\n" ++
  "1. Please make sure you are logged into the right azure account by running az account show and checking the user.\n" ++
  "2. If you are logged in as the right account please check the subscription you are using. Run az account show and view the name.\n" ++
  "   If you need to set the subscription run az account set --subscription SUBSCRIPTION_NAME\n" ++
  "3. If you do not have a function app please create one"

/-- `_select_functionapp`: list the function apps, fail when none exist,
otherwise pick the prompted index from the sorted names. -/
def _select_functionapp (env : Env) : List Event × Except Err Functionapp :=
  let names := sortStrings (env.functionapps.map (fun f => f.name))
  if names.length < 1 then ([Event.listFunctionApps], .error (.cli noFunctionappsMsg))
  else
    match names.get? env.faChoice with
    | none => ([Event.listFunctionApps], .error .stuck)
    | some chosen =>
      match env.functionapps.filter (fun f => f.name = chosen) with
      | [] => ([Event.listFunctionApps], .error .pythonError)
      | fa :: _ => ([Event.listFunctionApps], .ok fa)

/-- `CmdSelectors.cmd_functionapp`: look the explicit name up among the
listed function apps, failing with a `CLIError` when absent. -/
def cmd_functionapp (env : Env) (functionapp_name : String) :
    List Event × Except Err Functionapp :=
  match env.functionapps.filter (fun f => f.name = functionapp_name) with
  | [] =>
    ([Event.listFunctionApps],
     .error (.cli "Error finding functionapp. Please check that the functionapp exists using az functionapp list"))
  | fa :: _ => ([Event.listFunctionApps], .ok fa)

/-- `_get_functionapp_runtime_language`: the mapped language of the
`FUNCTIONS_WORKER_RUNTIME` application setting (`none` when the setting is
absent), raising `LanguageNotSupportException` on an unsupported value. -/
def _get_functionapp_runtime_language (app_settings : List AppSetting) :
    Except Err (Option String) :=
  match (app_settings.filter (fun s => s.name = "FUNCTIONS_WORKER_RUNTIME")).map
      (fun s => s.value) with
  | [] => .ok none
  | v :: _ =>
    match SUPPORTED_LANGUAGES.lookup v with
    | some mapped => .ok (some mapped)
    | none => .error (.langNotSupported v)

/-- `process_functionapp`: resolve the function app (prompting when no
name was given), read its kind and application settings remotely, and
record resource group, hosting type, language and storage name. -/
def process_functionapp (env : Env) (st : St) : List Event × Except Err St :=
  let fa := match st.functionapp_name with
    | none => _select_functionapp env
    | some n => cmd_functionapp env n
  match fa.2 with
  | .error e => (fa.1, .error e)
  | .ok f =>
    let evs := fa.1 ++ [Event.showWebapp, Event.getAppSettings]
    match _get_functionapp_runtime_language env.app_settings with
    | .error (.langNotSupported l) =>
      (evs, .error (.cli ("Sorry, currently we do not support " ++ l ++ ".")))
    | .error e => (evs, .error e)
    | .ok lang =>
      match _get_functionapp_storage_name env.app_settings with
      | .indexError => (evs, .error .pythonError)
      | .ok sn =>
        (evs, .ok { st with
          functionapp_name := some f.name,
          resource_group_name := some f.resource_group,
          functionapp_type := some (_find_type env.kinds),
          functionapp_language := lang,
          storage_name := sn })

/-- The runtime value read from the `Values` object of the local
settings file (`settings.get('Values', {}).get('FUNCTIONS_WORKER_RUNTIME')`). -/
def getRuntimeFromValues (values : Option (List (String × String))) : Option String :=
  (values.getD []).lookup "FUNCTIONS_WORKER_RUNTIME"

/-- `_find_local_repository_runtime_language`: the locally declared
runtime language; a `CLIError` when missing or empty, an uncaught
`LanguageNotSupportException` when unsupported. -/
def _find_local_repository_runtime_language (values : Option (List (String × String))) :
    Except Err String :=
  match getRuntimeFromValues values with
  | none => .error (.cli runtimeNotDefinedMsg)
  | some v =>
    if v = "" then .error (.cli runtimeNotDefinedMsg)
    else
      match SUPPORTED_LANGUAGES.lookup v with
      | some _ => .ok v
      | none => .error (.langNotSupported v)

/-- The `CLIError` message when `host.json` is missing locally. -/
def hostJsonMissingMsg : String :=
  "There is no host.json in the current directory.\nFunctionapps must contain a host.json in their root"

/-- The `CLIError` message when `local.settings.json` is missing locally. -/
def localSettingsMissingMsg : String :=
  "There is no local.settings.json in the current directory.\nFunctionapps must contain a local.settings.json in their root"

/-- `pre_checks_azure_devops`: requires git, `host.json` and
`local.settings.json` in the current directory, then compares the local
runtime declaration against the function app language. -/
def pre_checks_azure_devops (env : Env) (st : St) : List Event × Except Err St :=
  let evs := [Event.checkGit]
  if !env.has_git then
    (evs, .error (.cli "The program requires git source control to operate, please install git."))
  else if !env.host_json then (evs, .error (.cli hostJsonMissingMsg))
  else if !env.local_settings_json then (evs, .error (.cli localSettingsMissingMsg))
  else
    match _find_local_repository_runtime_language env.localValues with
    | .error e => (evs, .error e)
    | .ok lang =>
      if st.functionapp_language = some lang then (evs, .ok st)
      else (evs, .error (.cli (languageMismatchMsg lang st.functionapp_language)))

/-- The `while True` organization-creation retry loop: one
`create_organization` call per modelled attempt, succeeding at the first
valid name. -/
def createOrgLoop : List (String × Bool) → List Event × Except Err String
  | [] => ([], .error .stuck)
  | (n, valid) :: rest =>
    if valid then ([Event.createOrganization], .ok n)
    else
      let r := createOrgLoop rest
      (Event.createOrganization :: r.1, r.2)

/-- `_create_organization`: list the regions, prompt a region choice,
then retry creation until the remote accepts a name. -/
def _create_organization (env : Env) : List Event × Except Err String :=
  match (sortStrings env.regions).get? env.regionChoice with
  | none => ([Event.listRegions], .error .stuck)
  | some _ =>
    let r := createOrgLoop env.orgAttempts
    (Event.listRegions :: r.1, r.2)

/-- `_select_organization`: list the organizations; create one when none
exist (setting the created flag), otherwise pick the prompted index. -/
def _select_organization (env : Env) : List Event × Except Err (String × Bool) :=
  let names := sortStrings env.organizations
  if names.length < 1 then
    let r := _create_organization env
    (Event.listOrganizations :: r.1, r.2.map (fun n => (n, true)))
  else
    match names.get? env.orgChoice with
    | none => ([Event.listOrganizations], .error .stuck)
    | some n => ([Event.listOrganizations], .ok (n, false))

/-- `process_organization`: validate an explicit organization name
remotely, or resolve one interactively (use-existing prompt, selection or
creation). -/
def process_organization (env : Env) (st : St) : List Event × Except Err St :=
  match st.organization_name with
  | none =>
    if env.useExistingOrg then
      let r := _select_organization env
      (r.1, r.2.map (fun p =>
        { st with organization_name := some p.1, created_organization := p.2 }))
    else
      let r := _create_organization env
      (r.1, r.2.map (fun n =>
        { st with organization_name := some n, created_organization := true }))
  | some name =>
    ([Event.listOrganizations],
     if env.organizations.contains name then .ok st
     else .error (.cli "Error finding organization. Please check that the organization exists by logging onto your dev.azure.com acocunt"))

/-- The project-creation retry loop (`while not project.valid`). -/
def createProjLoop : List (String × Bool) → List Event × Except Err String
  | [] => ([], .error .stuck)
  | (n, valid) :: rest =>
    if valid then ([Event.createProject], .ok n)
    else
      let r := createProjLoop rest
      (Event.createProject :: r.1, r.2)

/-- `_create_project`: prompt a name and retry creation until valid. -/
def _create_project (env : Env) : List Event × Except Err String :=
  createProjLoop env.projAttempts

/-- `_select_project`: list the projects; pick the prompted index when
some exist, otherwise fall back to creation. -/
def _select_project (env : Env) : List Event × Except Err (String × Bool) :=
  if env.projects.length > 0 then
    match (sortStrings env.projects).get? env.projChoice with
    | none => ([Event.listProjects], .error .stuck)
    | some n => ([Event.listProjects], .ok (n, false))
  else
    let r := _create_project env
    (Event.listProjects :: r.1, r.2.map (fun n => (n, true)))

/-- `process_project`: create a project directly after a fresh
organization, validate an explicit name remotely, or resolve one
interactively. -/
def process_project (env : Env) (st : St) : List Event × Except Err St :=
  match st.project_name with
  | none =>
    if st.created_organization then
      let r := _create_project env
      (r.1, r.2.map (fun n => { st with project_name := some n, created_project := true }))
    else if env.useExistingProject then
      let r := _select_project env
      (r.1, r.2.map (fun p => { st with project_name := some p.1, created_project := p.2 }))
    else
      let r := _create_project env
      (r.1, r.2.map (fun n => { st with project_name := some n, created_project := true }))
  | some name =>
    ([Event.listProjects],
     if env.projects.contains name then .ok st
     else .error (.cli "Error finding project. Please check that the project exists by logging onto your dev.azure.com acocunt"))

/-- The `CLIError` message when the pipeline manifest language/type
combination is unsupported. -/
def yamlNotSupportedMsg (lang : Option String) : String :=
  "Sorry, currently we do not support " ++
  (match lang with | none => "None" | some l => l) ++ "."

/-- `process_yaml_local`: store the collected consented settings, then
create (or consented-overwrite) the local `azure-pipelines.yml`. A
missing `Values` object is an uncaught `KeyError`. -/
def process_yaml_local (env : Env) (st : St) : List Event × Except Err St :=
  match env.localValues with
  | none => ([], .error .pythonError)
  | some values =>
    let st1 := { st with settings :=
      process_yaml_local_settings values st.use_local_settings env.promptUseLocalSettings }
    let response :=
      if env.pipelines_yml_exists then
        match st.overwrite_yaml with
        | none => env.promptOverwriteYaml
        | some b => b
      else false
    if !env.pipelines_yml_exists || response then
      if env.yaml_create_ok then ([Event.createYaml], .ok st1)
      else ([Event.createYaml], .error (.cli (yamlNotSupportedMsg st.functionapp_language)))
    else ([], .ok st1)

/-- Modelled from the spec: `AzureDevopsBuildProvider.get_local_git_remote_name`
is not under src/; the spec says the expected remote name is computed
deterministically from (organization, project, repository), and the name
carries the `_azuredevops_` marker rewritten by
`process_build_and_release_definition_name`. -/
def get_local_git_remote_name (org proj repo : String) : String :=
  "_azuredevops_" ++ org ++ "_" ++ proj ++ "_" ++ repo

/-- Modelled from the spec: `AzureDevopsBuildProvider.get_azure_devops_repo_url`
is not under src/; the spec says the expected remote URL is computed
deterministically from (organization, project, repository). -/
def get_azure_devops_repo_url (org proj repo : String) : String :=
  "https://dev.azure.com/" ++ org ++ "/" ++ proj ++ "/_git/" ++ repo

/-- The `CLIError` message of `process_local_repository` when a git remote
with the expected name already exists (quotes omitted). -/
def remoteExistsMsg (org proj repo : String) : String :=
  "There is a git remote bound to " ++ get_azure_devops_repo_url org proj repo ++ ".\n" ++
  "To update the repository and trigger an Azure Devops build, please use git push " ++
  get_local_git_remote_name org proj repo ++ " master"

/-- `process_local_repository`: detect a local repository, resolve the
target repository name (prompt defaulting to the project name), fail when
a git remote with the expected computed name already exists, otherwise set
up the local repository and record the remote name. -/
def process_local_repository (env : Env) (st : St) : List Event × Except Err St :=
  match st.organization_name, st.project_name with
  | some org, some proj =>
    let repo :=
      if truthyS st.repository_name then st.repository_name.getD ""
      else if env.promptRepository = "" then proj
      else env.promptRepository
    let evs := [Event.checkGitLocalRepository, Event.checkGitRemote]
    if env.has_local_git_remote then
      (evs, .error (.cli (remoteExistsMsg org proj repo)))
    else if env.setup_git_ok then
      (evs ++ [Event.setupLocalGit], .ok { st with
        repository_name := some repo,
        repository_remote_name := some (get_local_git_remote_name org proj repo) })
    else
      (evs ++ [Event.setupLocalGit], .error (.cli "Failed to setup local git repository."))
  | _, _ => ([], .error .pythonError)

/-- The force-push consent: the pre-supplied `--allow-force-push` answer
when present, otherwise the interactive prompt answer. -/
def forcePushConsent (env : Env) (st : St) : Bool :=
  match st.allow_force_push with
  | none => env.promptForcePushConsent
  | some b => b

/-- `_check_if_force_push_required`: an empty remote needs no force push;
a non-empty remote requires consent — declining removes the git remote
binding and aborts with a `CLIError`. -/
def _check_if_force_push_required (env : Env) (st : St) : List Event × Except Err Bool :=
  if env.remote_branches.isEmpty then ([], .ok false)
  else if forcePushConsent env st then ([], .ok true)
  else ([Event.removeGitRemote], .error (.cli "Failed to obtain your consent."))

/-- `_check_if_git_credential_required`: nothing to do when a git
credential manager exists; otherwise require consent that alternative
credentials are configured — declining removes the remote binding and
aborts. -/
def _check_if_git_credential_required (env : Env) (_st : St) : List Event × Except Err Unit :=
  if env.git_credential_manager then ([Event.checkGitCredentialManager], .ok ())
  else if env.promptCredentialConsent then ([Event.checkGitCredentialManager], .ok ())
  else ([Event.checkGitCredentialManager, Event.removeGitRemote],
        .error (.cli "Failed to obtain your consent."))

/-- The `CLIError` message when the push to the remote repository fails. -/
def pushFailedMsg (org proj repo : String) : String :=
  "Failed to push your local repository to " ++
  get_azure_devops_repo_url org proj repo ++ "\n" ++
  "Please check your credentials and ensure you are a contributor to the repository."

/-- `process_remote_repository`: create the remote repository when
absent, decide force push from the remote branches and consent, ensure a
credential mechanism, then push (force exactly when required); a failed
push removes the remote binding and aborts. -/
def process_remote_repository (env : Env) (st : St) : List Event × Except Err St :=
  let evs0 := [Event.getRepository] ++
    (if env.remote_repository_exists then [] else [Event.createRepository]) ++
    [Event.getRepositoryBranches]
  let fp := _check_if_force_push_required env st
  match fp.2 with
  | .error e => (evs0 ++ fp.1, .error e)
  | .ok is_force_push =>
    let cred := _check_if_git_credential_required env st
    match cred.2 with
    | .error e => (evs0 ++ fp.1 ++ cred.1, .error e)
    | .ok _ =>
      let evs1 := evs0 ++ fp.1 ++ cred.1 ++ [Event.push is_force_push]
      if env.push_ok then (evs1, .ok st)
      else
        (evs1 ++ [Event.removeGitRemote],
         .error (.cli (pushFailedMsg (st.organization_name.getD "")
           (st.project_name.getD "") (st.repository_name.getD ""))))

/-- The `CLIError` message when the service principal role assignment
fails (quotes omitted, `os.linesep` as newlines). -/
def roleAssignmentMsg : String :=
  "To use the Azure DevOps Pipeline Build,\n" ++
  "We need to assign a contributor role to the Azure Functions release service principle.\n" ++
  "Please ensure you are the owner of the subscription, or have role assignment write permission."

/-- `process_functionapp_service_endpoint` (AZURE_DEVOPS scenario):
reuse the first matching service endpoint or create one; a role
assignment failure removes the git remote and aborts. -/
def process_functionapp_service_endpoint (env : Env) (st : St) : List Event × Except Err St :=
  match env.service_endpoints with
  | [] =>
    if env.role_assignment_ok then
      ([Event.getServiceEndpoints, Event.createServiceEndpoint],
       .ok { st with service_endpoint_name := some env.created_service_endpoint_name })
    else
      ([Event.getServiceEndpoints, Event.createServiceEndpoint, Event.removeGitRemote],
       .error (.cli roleAssignmentMsg))
  | n :: _ =>
    ([Event.getServiceEndpoints], .ok { st with service_endpoint_name := some n })

/-- `process_extensions`: the LINUX_CONSUMPTION hosting type installs the
two required extensions. -/
def process_extensions (_env : Env) (st : St) : List Event × Except Err St :=
  if st.functionapp_type = some FType.linuxConsumption then
    ([Event.createExtension "AzureAppServiceSetAppSettings",
      Event.createExtension "PascalNaber-Xpirit-CreateSasToken"], .ok st)
  else ([], .ok st)

/-- The naming step inside the Azure DevOps flow: applies
`process_build_and_release_definition_name` to the session fields (the
source would fail on a `None` remote name, which the flow always sets
beforehand). -/
def process_build_and_release_definition_name_step (_env : Env) (st : St) :
    List Event × Except Err St :=
  match st.repository_remote_name with
  | none => ([], .error .pythonError)
  | some rrn =>
    let p := process_build_and_release_definition_name "AZURE_DEVOPS" rrn
      (st.github_repository.getD "") (st.build_definition_name, st.release_definition_name)
    ([], .ok { st with build_definition_name := p.1, release_definition_name := p.2 })

/-- `process_build` (AZURE_DEVOPS scenario): reuse the build definition
with the exact derived name or create it, then queue a build. -/
def process_build_step (env : Env) (st : St) : List Event × Except Err St :=
  let name := st.build_definition_name.getD ""
  ([Event.listBuildDefinitions] ++
    (if env.build_definitions.contains name then [] else [Event.createBuildDefinition]) ++
    [Event.createBuildObject],
   .ok { st with build_id := some env.build_id })

/-- `process_release` as a flow step over the session state. -/
def process_release_step (env : Env) (st : St) : List Event × Except Err St :=
  let r := process_release (st.organization_name.getD "") (st.project_name.getD "")
    (st.build_id.getD 0) env.polls env.release_definitions
    (st.release_definition_name.getD "") env.create_release_ok
  (r.1, r.2.map (fun _ => st))

/-- `azure_devops_flow`: the Azure DevOps scenario as the exact sequence
of steps of the source, with errors short-circuiting. -/
def azure_devops_flow (env : Env) (a : Args) : List Event × Except Err St :=
  bindStep (process_functionapp env (initSt a)) (fun st1 =>
  bindStep (pre_checks_azure_devops env st1) (fun st2 =>
  bindStep (process_organization env st2) (fun st3 =>
  bindStep (process_project env st3) (fun st4 =>
  bindStep (process_yaml_local env st4) (fun st5 =>
  bindStep (process_local_repository env st5) (fun st6 =>
  bindStep (process_remote_repository env st6) (fun st7 =>
  bindStep (process_functionapp_service_endpoint env st7) (fun st8 =>
  bindStep (process_extensions env st8) (fun st9 =>
  bindStep (process_build_and_release_definition_name_step env st9) (fun st10 =>
  bindStep (process_build_step env st10) (fun st11 =>
  process_release_step env st11)))))))))))

lemma select_functionapp_events (env : Env) :
    (_select_functionapp env).1 = [Event.listFunctionApps] := by
  simp only [_select_functionapp]
  split
  · rfl
  · split
    · rfl
    · split <;> rfl

lemma cmd_functionapp_events (env : Env) (n : String) :
    (cmd_functionapp env n).1 = [Event.listFunctionApps] := by
  unfold cmd_functionapp
  split <;> rfl

lemma process_functionapp_events (env : Env) (st : St) :
    ∀ e ∈ (process_functionapp env st).1,
      e = Event.listFunctionApps ∨ e = Event.showWebapp ∨ e = Event.getAppSettings := by
  intro e he
  cases hn : st.functionapp_name with
  | none =>
    have hse := select_functionapp_events env
    simp only [process_functionapp, hn] at he
    rcases h2 : (_select_functionapp env).2 with er | f <;> simp only [h2] at he
    · rw [hse] at he
      simp at he
      tauto
    · rcases hg : _get_functionapp_runtime_language env.app_settings with er2 | lang
      · cases er2 <;> (simp only [hg] at he; rw [hse] at he; simp at he; tauto)
      · simp only [hg] at he
        rcases hs : _get_functionapp_storage_name env.app_settings with sn | _ <;>
          (simp only [hs] at he; rw [hse] at he; simp at he; tauto)
  | some n =>
    have hse := cmd_functionapp_events env n
    simp only [process_functionapp, hn] at he
    rcases h2 : (cmd_functionapp env n).2 with er | f <;> simp only [h2] at he
    · rw [hse] at he
      simp at he
      tauto
    · rcases hg : _get_functionapp_runtime_language env.app_settings with er2 | lang
      · cases er2 <;> (simp only [hg] at he; rw [hse] at he; simp at he; tauto)
      · simp only [hg] at he
        rcases hs : _get_functionapp_storage_name env.app_settings with sn | _ <;>
          (simp only [hs] at he; rw [hse] at he; simp at he; tauto)

lemma pre_checks_events (env : Env) (st : St) :
    (pre_checks_azure_devops env st).1 = [Event.checkGit] := by
  unfold pre_checks_azure_devops
  split
  · rfl
  · split
    · rfl
    · split
      · rfl
      · split
        · rfl
        · split <;> rfl

lemma createOrgLoop_events (l : List (String × Bool)) :
    ∀ e ∈ (createOrgLoop l).1, e = Event.createOrganization := by
  induction l with
  | nil =>
    intro e he
    simp [createOrgLoop] at he
  | cons p rest ih =>
    intro e he
    obtain ⟨n, valid⟩ := p
    cases valid with
    | true =>
      simp [createOrgLoop] at he
      exact he
    | false =>
      simp [createOrgLoop] at he
      rcases he with he | he
      · exact he
      · exact ih e he

lemma create_organization_events (env : Env) :
    ∀ e ∈ (_create_organization env).1,
      e = Event.listRegions ∨ e = Event.createOrganization := by
  intro e he
  unfold _create_organization at he
  rcases hg : (sortStrings env.regions).get? env.regionChoice with _ | r <;>
    simp only [hg] at he
  · simp at he
    simp [he]
  · simp at he
    rcases he with he | he
    · simp [he]
    · exact Or.inr (createOrgLoop_events env.orgAttempts e he)

lemma select_organization_events (env : Env) :
    ∀ e ∈ (_select_organization env).1,
      e = Event.listOrganizations ∨ e = Event.listRegions ∨ e = Event.createOrganization := by
  intro e he
  simp only [_select_organization] at he
  split at he
  · simp at he
    rcases he with he | he
    · simp [he]
    · rcases create_organization_events env e he with h | h <;> simp [h]
  · split at he <;> (simp at he; simp [he])

lemma process_organization_events (env : Env) (st : St) :
    ∀ e ∈ (process_organization env st).1,
      e = Event.listOrganizations ∨ e = Event.listRegions ∨ e = Event.createOrganization := by
  intro e he
  unfold process_organization at he
  cases hn : st.organization_name with
  | none =>
    simp only [hn] at he
    split at he
    · simp only at he
      exact select_organization_events env e he
    · simp only at he
      rcases create_organization_events env e he with h | h <;> simp [h]
  | some name =>
    simp only [hn] at he
    simp at he
    simp [he]

lemma createProjLoop_events (l : List (String × Bool)) :
    ∀ e ∈ (createProjLoop l).1, e = Event.createProject := by
  induction l with
  | nil =>
    intro e he
    simp [createProjLoop] at he
  | cons p rest ih =>
    intro e he
    obtain ⟨n, valid⟩ := p
    cases valid with
    | true =>
      simp [createProjLoop] at he
      exact he
    | false =>
      simp [createProjLoop] at he
      rcases he with he | he
      · exact he
      · exact ih e he

lemma select_project_events (env : Env) :
    ∀ e ∈ (_select_project env).1,
      e = Event.listProjects ∨ e = Event.createProject := by
  intro e he
  unfold _select_project at he
  split at he
  · split at he <;> (simp at he; simp [he])
  · simp at he
    rcases he with he | he
    · simp [he]
    · exact Or.inr (createProjLoop_events env.projAttempts e he)

lemma process_project_events (env : Env) (st : St) :
    ∀ e ∈ (process_project env st).1,
      e = Event.listProjects ∨ e = Event.createProject := by
  intro e he
  unfold process_project at he
  cases hn : st.project_name with
  | none =>
    simp only [hn] at he
    split at he
    · simp only [_create_project] at he
      exact Or.inr (createProjLoop_events env.projAttempts e he)
    · split at he
      · simp only at he
        exact select_project_events env e he
      · simp only [_create_project] at he
        exact Or.inr (createProjLoop_events env.projAttempts e he)
  | some name =>
    simp only [hn] at he
    simp at he
    simp [he]

lemma process_yaml_local_events (env : Env) (st : St) :
    ∀ e ∈ (process_yaml_local env st).1, e = Event.createYaml := by
  intro e he
  unfold process_yaml_local at he
  cases hv : env.localValues with
  | none =>
    simp only [hv] at he
    simp at he
  | some values =>
    simp only [hv] at he
    split at he
    all_goals try split at he
    all_goals try split at he
    all_goals (simp at he; try exact he)

/-- C3 (amended): when the local settings file lacks
`FUNCTIONS_WORKER_RUNTIME` (or has it empty), the Azure DevOps flow fails
with the runtime-not-defined `CLIError` during `pre_checks_azure_devops`,
before any Azure DevOps provisioning API call or git push is attempted —
but after the function-app inspection performed by `process_functionapp`,
which precedes the pre-checks in the flow. -/
theorem azure_devops_flow_runtime_missing_spec :
    ∀ (env : Env) (a : Args) (evs1 : List Event) (st1 : St),
      process_functionapp env (initSt a) = (evs1, Except.ok st1) →
      env.has_git = true → env.host_json = true → env.local_settings_json = true →
      (getRuntimeFromValues env.localValues = none ∨
       getRuntimeFromValues env.localValues = some "") →
      (azure_devops_flow env a).2 = Except.error (Err.cli runtimeNotDefinedMsg) ∧
      (∀ e ∈ (azure_devops_flow env a).1,
        isDevopsApiCall e = false ∧ ∀ f, e ≠ Event.push f) := by
  intro env a evs1 st1 h1 hg hh hl hr
  have hfind : _find_local_repository_runtime_language env.localValues =
      Except.error (Err.cli runtimeNotDefinedMsg) := by
    rcases hr with hr | hr <;>
      simp [_find_local_repository_runtime_language, hr]
  have hpre : pre_checks_azure_devops env st1 =
      ([Event.checkGit], Except.error (Err.cli runtimeNotDefinedMsg)) := by
    simp [pre_checks_azure_devops, hg, hh, hl, hfind]
  have hflow : azure_devops_flow env a =
      (evs1 ++ [Event.checkGit], Except.error (Err.cli runtimeNotDefinedMsg)) := by
    unfold azure_devops_flow
    rw [h1]
    simp [bindStep, hpre]
  constructor
  · rw [hflow]
  · rw [hflow]
    intro e he
    rcases List.mem_append.mp he with h | h
    · have h1f : (process_functionapp env (initSt a)).1 = evs1 := by rw [h1]
      rw [← h1f] at h
      rcases process_functionapp_events env (initSt a) e h with h2 | h2 | h2 <;>
        (subst h2; exact ⟨rfl, by intro f hf; simp at hf⟩)
    · simp at h
      subst h
      exact ⟨rfl, by intro f hf; simp at hf⟩

/-- A scripted invocation: explicit function app, organization, project
and repository names. -/
def baseArgs : Args :=
  { functionapp_name := some "myapp",
    organization_name := some "myorg",
    project_name := some "myproj",
    repository_name := some "myrepo",
    overwrite_yaml := none,
    allow_force_push := none,
    use_local_settings := none,
    github_pat := none,
    github_repository := none }

/-- A happy-path environment for `baseArgs`: the function app exists with
a python runtime, the local settings declare python, the organization and
project exist, the repository is fresh and the build succeeds. -/
def baseEnv : Env :=
  { functionapps := [⟨"myapp", "myrg"⟩],
    faChoice := 0,
    kinds := ["functionapp"],
    app_settings := [⟨"FUNCTIONS_WORKER_RUNTIME", "python"⟩,
      ⟨"AzureWebJobsStorage", "DefaultEndpointsProtocol=https;AccountName=sto;AccountKey=k"⟩],
    has_git := true,
    host_json := true,
    local_settings_json := true,
    localValues := some [("FUNCTIONS_WORKER_RUNTIME", "python"), ("SOME_SETTING", "x")],
    organizations := ["myorg"],
    useExistingOrg := true,
    orgChoice := 0,
    regions := ["East US"],
    regionChoice := 0,
    orgAttempts := [],
    projects := ["myproj"],
    useExistingProject := true,
    projChoice := 0,
    projAttempts := [],
    promptUseLocalSettings := true,
    pipelines_yml_exists := false,
    promptOverwriteYaml := false,
    yaml_create_ok := true,
    has_local_git_repository := false,
    promptRepository := "",
    has_local_git_remote := false,
    setup_git_ok := true,
    remote_repository_exists := false,
    remote_branches := [],
    promptForcePushConsent := true,
    git_credential_manager := true,
    promptCredentialConsent := true,
    push_ok := true,
    service_endpoints := [],
    created_service_endpoint_name := "se",
    role_assignment_ok := true,
    build_definitions := [],
    build_id := 1,
    polls := [[⟨1, "completed", some "succeeded"⟩]],
    release_definitions := [],
    create_release_ok := true }

/-- `baseEnv` with the `FUNCTIONS_WORKER_RUNTIME` key missing from the
local settings file. -/
def envC3 : Env := { baseEnv with localValues := some [("SOME_SETTING", "x")] }

/-- The state after a step, when the step succeeded. -/
def stAfter (r : List Event × Except Err St) (dflt : St) : St :=
  match r.2 with
  | .ok s => s
  | .error _ => dflt

set_option maxRecDepth 4000 in
/-- C3 counterexample: on a run whose local settings lack
`FUNCTIONS_WORKER_RUNTIME`, the flow does fail with the runtime
`CLIError`, but its interaction trace already contains the remote
`get_app_settings` call made by `process_functionapp` before the
pre-checks — refuting "this failure occurs before any remote call is
attempted". -/
theorem azure_devops_flow_runtime_missing_counterexample :
    (azure_devops_flow envC3 baseArgs).2 = Except.error (Err.cli runtimeNotDefinedMsg) ∧
    Event.getAppSettings ∈ (azure_devops_flow envC3 baseArgs).1 ∧
    isRemoteCall Event.getAppSettings = true := by
  refine ⟨rfl, by decide, rfl⟩

/-- The session state after `process_functionapp` on the C3 environment. -/
def stC3fa : St := stAfter (process_functionapp envC3 (initSt baseArgs)) (initSt baseArgs)

set_option maxRecDepth 4000 in
/-- C3 witness: concrete application of the amended theorem. -/
theorem azure_devops_flow_runtime_missing_spec_witness :
    (azure_devops_flow envC3 baseArgs).2 = Except.error (Err.cli runtimeNotDefinedMsg) :=
  (azure_devops_flow_runtime_missing_spec envC3 baseArgs
    (process_functionapp envC3 (initSt baseArgs)).1 stC3fa rfl rfl rfl rfl (Or.inl rfl)).1

/-- C5: when the remote repository has existing branches, a declined
force-push consent (prompt answer, or a pre-supplied `--allow-force-push`
that answers no) removes the local git remote binding and aborts the step
with a `CLIError` before any push; a granted consent (with a git
credential manager present) proceeds to push with `force = true`. -/
theorem process_remote_repository_force_push_spec :
    ∀ (env : Env) (st : St),
      env.remote_branches ≠ [] →
      ((forcePushConsent env st = false →
        (process_remote_repository env st).2 =
          Except.error (Err.cli "Failed to obtain your consent.") ∧
        Event.removeGitRemote ∈ (process_remote_repository env st).1 ∧
        ∀ f, Event.push f ∉ (process_remote_repository env st).1) ∧
       (forcePushConsent env st = true → env.git_credential_manager = true →
        Event.push true ∈ (process_remote_repository env st).1)) := by
  intro env st hbr
  have hbe : env.remote_branches.isEmpty = false := by
    simpa [List.isEmpty_iff] using hbr
  constructor
  · intro hc
    have hfp : _check_if_force_push_required env st =
        ([Event.removeGitRemote], Except.error (Err.cli "Failed to obtain your consent.")) := by
      simp [_check_if_force_push_required, hbe, hc]
    refine ⟨?_, ?_, ?_⟩
    · cases hre : env.remote_repository_exists <;>
        simp [process_remote_repository, hfp, hre]
    · cases hre : env.remote_repository_exists <;>
        simp [process_remote_repository, hfp, hre]
    · intro f
      cases hre : env.remote_repository_exists <;>
        simp [process_remote_repository, hfp, hre]
  · intro hc hcm
    have hfp : _check_if_force_push_required env st = ([], Except.ok true) := by
      simp [_check_if_force_push_required, hbe, hc]
    have hcred : _check_if_git_credential_required env st =
        ([Event.checkGitCredentialManager], Except.ok ()) := by
      simp [_check_if_git_credential_required, hcm]
    cases hre : env.remote_repository_exists <;>
      cases hpo : env.push_ok <;>
        simp [process_remote_repository, hfp, hcred, hre, hpo]

/-- `baseEnv` with a non-empty remote repository. -/
def envC5 : Env := { baseEnv with remote_branches := ["master"] }

/-- A session state that pre-answers the force-push consent with no. -/
def stC5 : St := { initSt baseArgs with allow_force_push := some false }

/-- C5 witness: a pre-supplied negative `--allow-force-push` answer on a
non-empty remote aborts the step. -/
theorem process_remote_repository_force_push_spec_witness :
    (process_remote_repository envC5 stC5).2 =
      Except.error (Err.cli "Failed to obtain your consent.") :=
  ((process_remote_repository_force_push_spec envC5 stC5 (by decide)).1 rfl).1

/-- C6: when a local git remote with the expected computed name already
exists, and the flow reaches `process_local_repository` (the five
preceding steps succeed), the flow aborts there with the remote-exists
`CLIError`, no local repository setup is performed and no push is ever
attempted in that run. -/
theorem process_local_repository_existing_remote_spec :
    ∀ (env : Env) (a : Args) (e1 e2 e3 e4 e5 : List Event) (s1 s2 s3 s4 s5 : St)
      (org proj : String),
      process_functionapp env (initSt a) = (e1, Except.ok s1) →
      pre_checks_azure_devops env s1 = (e2, Except.ok s2) →
      process_organization env s2 = (e3, Except.ok s3) →
      process_project env s3 = (e4, Except.ok s4) →
      process_yaml_local env s4 = (e5, Except.ok s5) →
      s5.organization_name = some org →
      s5.project_name = some proj →
      env.has_local_git_remote = true →
      (∃ repo, (azure_devops_flow env a).2 =
        Except.error (Err.cli (remoteExistsMsg org proj repo))) ∧
      (∀ f, Event.push f ∉ (azure_devops_flow env a).1) ∧
      Event.setupLocalGit ∉ (azure_devops_flow env a).1 := by
  intro env a e1 e2 e3 e4 e5 s1 s2 s3 s4 s5 org proj h1 h2 h3 h4 h5 horg hproj hrem
  set repo := (if truthyS s5.repository_name then s5.repository_name.getD ""
    else if env.promptRepository = "" then proj
    else env.promptRepository) with hrepo
  have hloc : process_local_repository env s5 =
      ([Event.checkGitLocalRepository, Event.checkGitRemote],
       Except.error (Err.cli (remoteExistsMsg org proj repo))) := by
    simp only [process_local_repository, horg, hproj, hrem]
    simp [hrepo]
  have hflow : azure_devops_flow env a =
      (e1 ++ (e2 ++ (e3 ++ (e4 ++ (e5 ++
        [Event.checkGitLocalRepository, Event.checkGitRemote])))),
       Except.error (Err.cli (remoteExistsMsg org proj repo))) := by
    unfold azure_devops_flow
    rw [h1]
    simp [bindStep, h2, h3, h4, h5, hloc]
  have hben : ∀ x ∈ (azure_devops_flow env a).1,
      x = Event.checkGit ∨ x = Event.listFunctionApps ∨ x = Event.showWebapp ∨
      x = Event.getAppSettings ∨ x = Event.listOrganizations ∨ x = Event.listRegions ∨
      x = Event.createOrganization ∨ x = Event.listProjects ∨ x = Event.createProject ∨
      x = Event.createYaml ∨ x = Event.checkGitLocalRepository ∨
      x = Event.checkGitRemote := by
    intro x hx
    rw [hflow] at hx
    rcases List.mem_append.mp hx with h | hx
    · have h1f : (process_functionapp env (initSt a)).1 = e1 := by rw [h1]
      rw [← h1f] at h
      rcases process_functionapp_events env (initSt a) x h with h0 | h0 | h0 <;> simp [h0]
    · rcases List.mem_append.mp hx with h | hx
      · have h2f : (pre_checks_azure_devops env s1).1 = e2 := by rw [h2]
        have := pre_checks_events env s1
        rw [h2f] at this
        rw [this] at h
        simp at h
        simp [h]
      · rcases List.mem_append.mp hx with h | hx
        · have h3f : (process_organization env s2).1 = e3 := by rw [h3]
          rw [← h3f] at h
          rcases process_organization_events env s2 x h with h0 | h0 | h0 <;> simp [h0]
        · rcases List.mem_append.mp hx with h | hx
          · have h4f : (process_project env s3).1 = e4 := by rw [h4]
            rw [← h4f] at h
            rcases process_project_events env s3 x h with h0 | h0 <;> simp [h0]
          · rcases List.mem_append.mp hx with h | hx
            · have h5f : (process_yaml_local env s4).1 = e5 := by rw [h5]
              rw [← h5f] at h
              have h0 := process_yaml_local_events env s4 x h
              simp [h0]
            · simp at hx
              rcases hx with h0 | h0 <;> simp [h0]
  refine ⟨⟨repo, by rw [hflow]⟩, ?_, ?_⟩
  · intro f hf
    rcases hben _ hf with h|h|h|h|h|h|h|h|h|h|h|h <;> simp at h
  · intro hf
    rcases hben _ hf with h|h|h|h|h|h|h|h|h|h|h|h <;> simp at h

/-- `baseEnv` with a git remote matching the expected name already bound
locally. -/
def envC6 : Env := { baseEnv with has_local_git_remote := true }

/-- State after `process_functionapp` on the C6 environment. -/
def c6s1 : St := stAfter (process_functionapp envC6 (initSt baseArgs)) (initSt baseArgs)

/-- State after `pre_checks_azure_devops` on the C6 environment. -/
def c6s2 : St := stAfter (pre_checks_azure_devops envC6 c6s1) c6s1

/-- State after `process_organization` on the C6 environment. -/
def c6s3 : St := stAfter (process_organization envC6 c6s2) c6s2

/-- State after `process_project` on the C6 environment. -/
def c6s4 : St := stAfter (process_project envC6 c6s3) c6s3

/-- State after `process_yaml_local` on the C6 environment. -/
def c6s5 : St := stAfter (process_yaml_local envC6 c6s4) c6s4

set_option maxRecDepth 4000 in
/-- C6 witness: concrete run aborting on the pre-existing git remote. -/
theorem process_local_repository_existing_remote_spec_witness :
    ∃ repo, (azure_devops_flow envC6 baseArgs).2 =
      Except.error (Err.cli (remoteExistsMsg "myorg" "myproj" repo)) :=
  (process_local_repository_existing_remote_spec envC6 baseArgs
    (process_functionapp envC6 (initSt baseArgs)).1
    (pre_checks_azure_devops envC6 c6s1).1
    (process_organization envC6 c6s2).1
    (process_project envC6 c6s3).1
    (process_yaml_local envC6 c6s4).1
    c6s1 c6s2 c6s3 c6s4 c6s5 "myorg" "myproj"
    rfl rfl rfl rfl rfl rfl rfl rfl).1

lemma process_functionapp_ok (env : Env) (st : St) (evs : List Event) (st2 : St) :
    process_functionapp env st = (evs, Except.ok st2) →
    st2.functionapp_type = some (_find_type env.kinds) := by
  intro h
  cases hn : st.functionapp_name with
  | none =>
    simp only [process_functionapp, hn] at h
    rcases h2 : (_select_functionapp env).2 with er | f <;> simp only [h2] at h
    · exact absurd (congrArg Prod.snd h) (by simp)
    · rcases hg : _get_functionapp_runtime_language env.app_settings with er2 | lang
      · cases er2 <;> simp only [hg] at h <;>
          exact absurd (congrArg Prod.snd h) (by simp)
      · simp only [hg] at h
        rcases hs : _get_functionapp_storage_name env.app_settings with sn | _ <;>
          simp only [hs] at h
        · have hsnd := congrArg Prod.snd h
          simp only [Except.ok.injEq] at hsnd
          rw [← hsnd]
        · exact absurd (congrArg Prod.snd h) (by simp)
  | some n =>
    simp only [process_functionapp, hn] at h
    rcases h2 : (cmd_functionapp env n).2 with er | f <;> simp only [h2] at h
    · exact absurd (congrArg Prod.snd h) (by simp)
    · rcases hg : _get_functionapp_runtime_language env.app_settings with er2 | lang
      · cases er2 <;> simp only [hg] at h <;>
          exact absurd (congrArg Prod.snd h) (by simp)
      · simp only [hg] at h
        rcases hs : _get_functionapp_storage_name env.app_settings with sn | _ <;>
          simp only [hs] at h
        · have hsnd := congrArg Prod.snd h
          simp only [Except.ok.injEq] at hsnd
          rw [← hsnd]
        · exact absurd (congrArg Prod.snd h) (by simp)

/-- C10: `_find_type` classifies the webapp kind fragments — both linux
and container yield LINUX_DEDICATED, linux without container yields
LINUX_CONSUMPTION, and anything else yields WINDOWS — so the result is
always exactly one of the three hosting types, and a successful
`process_functionapp` stores exactly `_find_type kinds` in the session. -/
theorem find_type_spec :
    ∀ (kinds : List String),
      ("linux" ∈ kinds → "container" ∈ kinds → _find_type kinds = FType.linuxDedicated) ∧
      ("linux" ∈ kinds → "container" ∉ kinds → _find_type kinds = FType.linuxConsumption) ∧
      ("linux" ∉ kinds → _find_type kinds = FType.windows) ∧
      (_find_type kinds = FType.linuxDedicated ∨ _find_type kinds = FType.linuxConsumption ∨
       _find_type kinds = FType.windows) ∧
      (∀ (env : Env) (st : St) (evs : List Event) (st2 : St),
        process_functionapp env st = (evs, Except.ok st2) → env.kinds = kinds →
        st2.functionapp_type = some (_find_type kinds)) := by
  intro kinds
  refine ⟨?_, ?_, ?_, ?_, ?_⟩
  · intro h1 h2
    simp [_find_type, pyContains, h1, h2]
  · intro h1 h2
    simp [_find_type, pyContains, h1, h2]
  · intro h1
    simp [_find_type, pyContains, h1]
  · by_cases h1 : "linux" ∈ kinds
    · by_cases h2 : "container" ∈ kinds
      · exact Or.inl (by simp [_find_type, pyContains, h1, h2])
      · exact Or.inr (Or.inl (by simp [_find_type, pyContains, h1, h2]))
    · exact Or.inr (Or.inr (by simp [_find_type, pyContains, h1]))
  · intro env st evs st2 h hk
    rw [← hk]
    exact process_functionapp_ok env st evs st2 h

/-- C10 witness: a linux container kind list is LINUX_DEDICATED. -/
theorem find_type_spec_witness :
    _find_type ["functionapp", "linux", "container"] = FType.linuxDedicated :=
  (find_type_spec ["functionapp", "linux", "container"]).1 (by decide) (by decide)
